import Mathlib

/-!
Verification development for the hot-air-gun station firmware
(hot_air_gun_station_V1.0.ino).  The firmware's core components are
shallowly embedded: the EEPROM-backed configuration store (class CONFIG),
the calibration mapping (class HOTGUN_CFG), the sample history ring buffer
(class HISTORY), the PID regulator (class PID) and the AC-synchronized
power controller (class HOTGUN).  Machine integers are modelled as Nat/Int
with explicit reductions modulo 2^8 / 2^16 / 2^32 where the C types
(uint8_t, uint16_t, uint32_t) wrap; C long division (truncation toward
zero) is Int.tdiv, and the arithmetic right shift of a signed long is
floor division (Int.fdiv) by the corresponding power of two.
-/

namespace Rework

/-! ### Configuration store (class CONFIG)

The EEPROM is modelled as an unbounded byte tape (Nat → Nat, reads reduce
modulo 256); the region scanned and managed by the store is the first
eLength bytes.  On the target (atmega328) EEPROM.length() = 1024, but the
store code only uses the length through the parameter, so the model keeps
it as an argument eLen.  sizeof(struct cfg) = 8, so the record size
selected by the constructor loop (smallest power of two that is at least
8 + 5 = 13) is 16 bytes. -/

/-- record_size computed by the CONFIG constructor: 13 rounded up to the
next power of two starting from 8. -/
def record_size : Nat := 16

/-- struct cfg: packed calibration word (uint32_t), preset temperature
(uint16_t), fan speed (uint8_t), auto-off timeout (uint8_t). -/
structure cfg where
  calibration : Nat
  temp        : Nat
  fan         : Nat
  off_timeout : Nat
deriving DecidableEq, Repr

/-- Serialization of struct cfg as laid out in AVR memory (little-endian,
no padding): 4 bytes of calibration, 2 bytes of temp, fan, off_timeout. -/
def cfgBytes (c : cfg) : List Nat :=
  [c.calibration % 256, c.calibration / 256 % 256,
   c.calibration / 65536 % 256, c.calibration / 16777216 % 256,
   c.temp % 256, c.temp / 256 % 256,
   c.fan % 256, c.off_timeout % 256]

/-- Little-endian bytes of the 4-byte record ID. -/
def idBytes (id : Nat) : List Nat :=
  [id % 256, id / 256 % 256, id / 65536 % 256, id / 16777216 % 256]

/-- One checksum accumulation step: summ <<= 2; summ += b; on a uint8_t. -/
def chkStep (c b : Nat) : Nat := (4 * c + b) % 256

/-- Checksum over a byte list as computed by CONFIG::readRecord and
CONFIG::save: fold of chkStep from 0, then the final summ++ (uint8_t). -/
def checksum (l : List Nat) : Nat := (l.foldl chkStep 0 + 1) % 256

/-- State of the CONFIG instance: the EEPROM tape plus the read / write
addresses, the next record ID counter (uint32_t) and the can_write flag.
Config is the in-memory staging copy of struct cfg. -/
structure ConfigState where
  eeprom    : Nat → Nat
  rAddr     : Nat
  wAddr     : Nat
  nextRecID : Nat
  can_write : Bool
  Config    : cfg

/-- EEPROM.write: store one byte (the C call receives a uint8_t). -/
def eewrite (e : Nat → Nat) (a v : Nat) : Nat → Nat :=
  fun x => if x = a then v % 256 else e x

/-- Sequential EEPROM.write of a byte list starting at addr. -/
def eewrites (e : Nat → Nat) (addr : Nat) : List Nat → (Nat → Nat)
  | []      => e
  | b :: bs => eewrites (eewrite e addr b) (addr + 1) bs

/-- CONFIG::readRecord at addr: read record_size bytes, recompute the
checksum over the 4 ID bytes and the 8 payload bytes, compare with the
stored checksum byte at offset record_size − 1; on success return the
decoded record ID and payload. -/
def readRecord (e : Nat → Nat) (addr : Nat) : Option (Nat × cfg) :=
  let b : Nat → Nat := fun i => e (addr + i) % 256
  let summ := checksum ((List.range 12).map b)
  if summ = b 15 then
    some (b 0 + 256 * b 1 + 65536 * b 2 + 16777216 * b 3,
          { calibration := b 4 + 256 * b 5 + 65536 * b 6 + 16777216 * b 7,
            temp := b 8 + 256 * b 9, fan := b 10, off_timeout := b 11 })
  else
    none

/-- CONFIG::save: refuse when can_write is false; otherwise write the
4 ID bytes (little-endian) then the 8 payload bytes at wAddr, write the
checksum byte at wAddr + record_size − 1, move rAddr to the written slot,
advance wAddr by record_size (reset to 0 only when it exceeds eLen), and
increment the record ID counter (uint32_t).  Returns the save result and
the new state.  In the C code the checksum is accumulated from the whole
shifted nxt value rather than the stored low byte, which agrees with the
byte-list checksum modulo 256. -/
def save (eLen : Nat) (s : ConfigState) : Bool × ConfigState :=
  if s.can_write = false then (false, s)
  else
    let id := if s.nextRecID = 0 then 1 else s.nextRecID
    let bytes := idBytes id ++ cfgBytes s.Config
    let e1 := eewrites s.eeprom s.wAddr bytes
    let e2 := eewrite e1 (s.wAddr + record_size - 1) (checksum bytes)
    let w := s.wAddr + record_size
    (true,
     { eeprom := e2, rAddr := s.wAddr,
       wAddr := if w > eLen then 0 else w,
       nextRecID := (id + 1) % 4294967296,
       can_write := true, Config := s.Config })

/-- Slot start addresses visited by the CONFIG::init scan loop:
addr = 0, record_size, 2*record_size, ... while addr < eLen. -/
def slotAddrs (eLen : Nat) : List Nat :=
  (List.range ((eLen + record_size - 1) / record_size)).map (· * record_size)

/-- Scan loop body of CONFIG::init: successive readRecord calls; a slot
that fails to decode stops the scan (the else branch of the loop body is
a break).  Returns the (address, recID, payload) triples of the decoded
prefix of slots. -/
def scanValid (e : Nat → Nat) : List Nat → List (Nat × Nat × cfg)
  | [] => []
  | a :: rest =>
    match readRecord e a with
    | some (id, c) => (a, id, c) :: scanValid e rest
    | none => []

/-- Fold of the init loop tracking (minRecID, minRecAddr, maxRecID,
maxRecAddr) exactly as the strict comparisons in the C loop do. -/
def minmaxFold (ps : List (Nat × Nat × cfg)) : Nat × Nat × Nat × Nat :=
  ps.foldl
    (fun acc p =>
      let (mn, mna, mx, mxa) := acc
      let (mn, mna) := if mn > p.2.1 then (p.2.1, p.1) else (mn, mna)
      let (mx, mxa) := if mx < p.2.1 then (p.2.1, p.1) else (mx, mxa)
      (mn, mna, mx, mxa))
    (4294967295, 0, 0, 0)

/-- CONFIG::init on the region of eLen bytes of the tape e: scan slots
until the first undecodable one; if none decodes, start empty at address
0; otherwise read from the newest slot, and write either after it
(reset to 0 only past eLen) or over the oldest slot when the region is
full.  Config ends as the payload of the last decoded slot. -/
def init (eLen : Nat) (e : Nat → Nat) (c0 : cfg) : ConfigState :=
  let ps := scanValid e (slotAddrs eLen)
  let records := ps.length
  let conf := (ps.foldl (fun _ p => some p.2.2) none).getD c0
  if records = 0 then
    { eeprom := e, rAddr := 0, wAddr := 0, nextRecID := 0,
      can_write := true, Config := conf }
  else
    let (_, _, _, mxa) := minmaxFold ps
    let (_, mna, _, _) := minmaxFold ps
    let rA := mxa
    let wA :=
      if records < eLen / record_size then
        if rA + record_size > eLen then 0 else rA + record_size
      else mna
    { eeprom := e, rAddr := rA, wAddr := wA, nextRecID := 0,
      can_write := true, Config := conf }

/-- State of a CONFIG object as left by the C++ constructor (before
init() runs): can_write is false, addresses and the ID counter are 0.
The staging payload is indeterminate in C; the model picks zeros, and no
claim depends on it before init/load. -/
def construct (e : Nat → Nat) : ConfigState :=
  { eeprom := e, rAddr := 0, wAddr := 0, nextRecID := 0,
    can_write := false, Config := ⟨0, 0, 0, 0⟩ }

end Rework

namespace Rework

/-! ### Calibration mapping (class HOTGUN_CFG) -/

/-- Celsius reference points temp_tip = {200, 300, 400}. -/
def temp_tip0 : Nat := 200

/-- Celsius mid reference. -/
def temp_tip1 : Nat := 300

/-- Celsius high reference. -/
def temp_tip2 : Nat := 400

/-- Lower bound of the preset temperature (Celsius). -/
def temp_minC : Nat := 150

/-- Upper bound of the preset temperature (Celsius). -/
def temp_maxC : Nat := 500

/-- Ambient sensor reading reference (raw units). -/
def ambient_temp : Nat := 0

/-- Ambient temperature in Celsius. -/
def ambient_tempC : Nat := 25

/-- Maximal raw value accepted for the high calibration point. -/
def max_temp : Nat := 900

/-- Default raw reading at the low reference. -/
def def_tip0 : Nat := 587

/-- Default raw reading at the mid reference. -/
def def_tip1 : Nat := 751

/-- Default raw reading at the high reference. -/
def def_tip2 : Nat := 850

/-- Arduino map(x, lo, hi, olo, ohi) over C long values; C integer
division truncates toward zero (Int.tdiv). -/
def amap (x lo hi olo ohi : Int) : Int :=
  Int.tdiv ((x - lo) * (ohi - olo)) (hi - lo) + olo

/-- Conversion of a C long value to uint16_t (reduction mod 2^16). -/
def u16 (x : Int) : Nat := (x % 65536).toNat

/-- Decrement of a uint16_t (the --temp in the tempInternal loop). -/
def dec16 (n : Nat) : Nat := (n + 65535) % 65536

/-- Arduino constrain macro on C int values. -/
def constrainI (x lo hi : Int) : Int :=
  if x < lo then lo else if x > hi then hi else x

/-- State of the HOTGUN_CFG instance: the staged config record plus the
three raw calibration references t_tip[0..2]. -/
structure HGCfg where
  Config : cfg
  t_tip0 : Nat
  t_tip1 : Nat
  t_tip2 : Nat
deriving DecidableEq, Repr

/-- HOTGUN_CFG::tempHuman: raw units to Celsius over the 3-segment
piecewise linear curve anchored at ambient, low, mid, high. -/
def tempHuman (s : HGCfg) (temp : Nat) : Nat :=
  if temp ≤ ambient_temp then ambient_tempC
  else if temp < s.t_tip0 then
    u16 (amap temp ambient_temp s.t_tip0 ambient_tempC temp_tip0)
  else if temp ≥ s.t_tip1 then
    u16 (amap temp s.t_tip1 s.t_tip2 temp_tip1 temp_tip2)
  else
    u16 (amap temp s.t_tip0 s.t_tip1 temp_tip0 temp_tip1)

/-- Correction loop of HOTGUN_CFG::tempInternal: up to 10 single-unit
decrements of temp (uint16_t), stopping as soon as tempHuman(temp) no
longer exceeds the constrained target t. -/
def tiLoop (s : HGCfg) (t : Nat) : Nat → Nat → Nat
  | 0, temp => temp
  | fuel + 1, temp =>
    if tempHuman s temp ≤ t then temp else tiLoop s t fuel (dec16 temp)

/-- HOTGUN_CFG::tempInternal: constrain the Celsius target to
[temp_minC, temp_maxC], inverse-map (with the +1 bias) on the segment
selected by the target, then run the 10-step correction loop. -/
def tempInternal (s : HGCfg) (tIn : Nat) : Nat :=
  let t := if tIn < temp_minC then temp_minC
           else if tIn > temp_maxC then temp_maxC else tIn
  let temp := if t ≥ temp_tip1 then
                u16 (amap (t + 1) temp_tip1 temp_tip2 s.t_tip1 s.t_tip2)
              else
                u16 (amap (t + 1) temp_tip0 temp_tip1 s.t_tip0 s.t_tip1)
  tiLoop s t 10 temp

/-- HOTGUN_CFG::getCalibrationData: expose the raw references. -/
def getCalibrationData (s : HGCfg) : Nat × Nat × Nat :=
  (s.t_tip0, s.t_tip1, s.t_tip2)

/-- HOTGUN_CFG::applyCalibrationData: install three new raw references
in memory.  The guard on tip[0] < ambient_temp can never fire for
unsigned values with ambient_temp = 0 but is kept as written; tip[2] is
capped at max_temp. -/
def applyCalibrationData (s : HGCfg) (tip0 tip1 tip2 : Nat) : HGCfg :=
  let tip0 := if tip0 < ambient_temp then ((ambient_temp + tip1) % 65536) / 2
              else tip0
  let s := { s with t_tip0 := tip0 }
  let s := { s with t_tip1 := tip1 }
  let tip2 := if tip2 > max_temp then max_temp else tip2
  { s with t_tip2 := tip2 }

/-- HOTGUN_CFG::saveCalibrationData: cap tip[2], pack the three raw
values 10 bits each (low point in the low bits) into the staged
Config.calibration word, and update the in-memory references.  The two
final assignments mirror the source exactly: the code stores tip[1] and
then tip[2] both into t_tip[2], and never writes t_tip[1]. -/
def saveCalibrationData (s : HGCfg) (tip0 tip1 tip2 : Nat) : HGCfg :=
  let tip2 := if tip2 > max_temp then max_temp else tip2
  let cd := ((((tip2 &&& 1023) <<< 10) ||| (tip1 &&& 1023)) <<< 10)
            ||| (tip0 % 65536)
  let s := { s with Config := { s.Config with calibration := cd % 4294967296 } }
  let s := { s with t_tip0 := tip0 % 65536 }
  let s := { s with t_tip2 := tip1 % 65536 }
  { s with t_tip2 := tip2 % 65536 }

/-- Unpacking of the three 10-bit raw calibration values from the
Config.calibration word, as done at the start of HOTGUN_CFG::init. -/
def unpackCal (cd : Nat) : Nat × Nat × Nat :=
  (cd &&& 1023, (cd >>> 10) &&& 1023, (cd >>> 20) &&& 1023)

/-- Calibration part of HOTGUN_CFG::init: unpack the stored word and
replace the result wholesale by the built-in defaults when it is not
strictly increasing. -/
def initTips (cd : Nat) : Nat × Nat × Nat :=
  let u := unpackCal cd
  if u.1 ≥ u.2.1 ∨ u.2.1 ≥ u.2.2 then (def_tip0, def_tip1, def_tip2) else u

/-! ### Sample history (class HISTORY) -/

/-- Ring buffer of H_LENGTH = 16 uint16_t samples.  queue models the
backing array (always 16 slots), len the fill count, index the overwrite
position once full. -/
structure HISTORY where
  queue : List Nat
  len   : Nat
  index : Nat
deriving DecidableEq, Repr

/-- HISTORY state with len = 0, as left by the constructor / init(). -/
def HISTORY.initH : HISTORY := ⟨List.replicate 16 0, 0, 0⟩

/-- HISTORY::put: append while below capacity, else overwrite at index
and advance it in ring order.  The stored item is a uint16_t. -/
def HISTORY.put (h : HISTORY) (item : Nat) : HISTORY :=
  if h.len < 16 then
    { h with queue := h.queue.set h.len (item % 65536), len := h.len + 1 }
  else
    let q := h.queue.set h.index (item % 65536)
    let i := h.index + 1
    { h with queue := q, index := if i ≥ 16 then 0 else i }

/-- HISTORY::average: 0 when empty, the single element when len = 1,
otherwise the sum of the stored elements plus len >> 1, divided by len
(uint32_t arithmetic; with 16 uint16_t samples the sum cannot wrap). -/
def HISTORY.average (h : HISTORY) : Nat :=
  if h.len = 0 then 0
  else if h.len = 1 then h.queue.headD 0
  else ((h.queue.take h.len).foldl (· + ·) 0 + h.len / 2) / h.len

/-- HISTORY::dispersion: 1000 when fewer than 3 samples; otherwise the
sum of squared deviations from average() plus len << 1, divided by len.
The uint32_t accumulator wraps mod 2^32; the final float division is
modelled as exact division in ℚ (the int32 square q*q is modelled by the
exact square, its overflow being undefined behaviour in C). -/
def HISTORY.dispersion (h : HISTORY) : ℚ :=
  if h.len < 3 then 1000
  else
    let avg : Nat := h.average
    let sum : Nat := (h.queue.take h.len).foldl
      (fun sm (q : Nat) => (sm + ((Int.ofNat q - Int.ofNat avg) ^ 2).toNat) % 4294967296) 0
    let sum2 := (sum + 2 * h.len) % 4294967296
    (sum2 : ℚ) / (h.len : ℚ)

/-! ### PID regulator (class PID) -/

/-- PID state: the two most recent samples, the iterating flag, the
running error sum and the accumulated power, all C int / long values,
plus the three coefficients (set to 638, 196, 1 by the constructor). -/
structure PIDState where
  temp_h0     : Int
  temp_h1     : Int
  pid_iterate : Bool
  i_summ      : Int
  power       : Int
  Kp          : Int
  Ki          : Int
  Kd          : Int
deriving DecidableEq, Repr

/-- PID::resetPID(temp): clear the history, power and integral sum and
the iterating flag; seed temp_h1 with temp only when 0 < temp < 1000. -/
def resetPID (p : PIDState) (temp : Int) : PIDState :=
  { p with temp_h0 := 0, power := 0, i_summ := 0, pid_iterate := false,
           temp_h1 := if 0 < temp ∧ temp < 1000 then temp else 0 }

/-- PID::reqPower(temp_set, temp_curr): direct PI formula while
temp_h0 = 0 (bootstrap), switching the iterating flag on once the error
is below 30; incremental recurrence otherwise.  Shifts the two-sample
history only in iterating mode and returns the accumulated power with
rounding bias, arithmetically shifted right by denominator_p = 11. -/
def reqPower (p : PIDState) (temp_set temp_curr : Int) : Int × PIDState :=
  let p :=
    if p.temp_h0 = 0 then
      let p := if temp_set - temp_curr < 30 ∧ p.pid_iterate = false then
                 { p with pid_iterate := true, power := 0, i_summ := 0 }
               else p
      let is := p.i_summ + (temp_set - temp_curr)
      { p with i_summ := is,
               power := p.Kp * (temp_set - temp_curr) + p.Ki * is }
    else
      { p with power := p.power +
          (p.Kp * (p.temp_h1 - temp_curr) + p.Ki * (temp_set - temp_curr) +
           p.Kd * (p.temp_h0 + temp_curr - 2 * p.temp_h1)) }
  let p := if p.pid_iterate then
             { p with temp_h0 := p.temp_h1, temp_h1 := temp_curr }
           else { p with temp_h1 := temp_curr }
  (Int.fdiv (p.power + 1024) 2048, p)

/-! ### Power controller (class HOTGUN) -/

/-- Ticks per control cycle. -/
def period : Nat := 100

/-- Fan duty floor applied when switching on. -/
def min_fan_speed : Nat := 30

/-- Cold-sensor threshold used by the fan hysteresis. -/
def temp_gun_cold : Nat := 80

/-- State of the HOTGUN controller (class HOTGUN : public PID).  gun is
the heater output pin level, fanDuty the fan PWM duty register; is_on
models the C field named on (a reserved word here). -/
structure HotGun where
  pid          : PIDState
  power        : Int
  temp_set     : Nat
  fan_speed    : Nat
  cnt          : Nat
  actual_power : Nat
  active       : Bool
  is_on        : Bool
  fan          : Bool
  fix_power    : Bool
  chill        : Bool
  last_period  : Nat
  h_power      : HISTORY
  h_temp       : HISTORY
  gun          : Bool
  fanDuty      : Nat
deriving DecidableEq, Repr

/-- Conversion of a uint16_t value to the 16-bit C int expected by
PID::reqPower. -/
def i16 (n : Nat) : Int :=
  if n % 65536 < 32768 then (n % 65536 : Int) else (n % 65536 : Int) - 65536

/-- HOTGUN::syncCB, invoked at every AC zero-cross edge at time now:
increment the uint8_t tick counter; at the wraparound reset it, record
the time and raise the heater output if power is pending; once the
counter reaches actual_power lower the heater output.  Returns the new
state and whether this edge was a cycle boundary (cnt == 0). -/
def syncCB (now : Nat) (s : HotGun) : HotGun × Bool :=
  let c := (s.cnt + 1) % 256
  if c ≥ period then
    let s := { s with cnt := 0, last_period := now }
    let s := if s.active = false ∧ s.actual_power > 0 then
               { s with gun := true, active := true }
             else s
    (s, true)
  else
    let s := { s with cnt := c }
    let s := if c ≥ s.actual_power then
               (if s.active then { s with gun := false, active := false }
                else s)
             else s
    (s, c == 0)

/-- HOTGUN::switchPower: off clears the heater output and the applied
power at once; on raises the fan duty to the floor and starts the fan. -/
def switchPower (s : HotGun) (On : Bool) : HotGun :=
  let s := { s with is_on := On }
  if On = false then { s with gun := false, actual_power := 0 }
  else
    let fs := if s.fan_speed < min_fan_speed then min_fan_speed
              else s.fan_speed
    { s with fan_speed := fs, fanDuty := fs, fan := true }

/-- HOTGUN::fixPower: zero cancels the manual override, nonzero clamps
to period and pins the applied power directly. -/
def fixPower (s : HotGun) (Power : Nat) : HotGun :=
  let P := Power % 256
  if P = 0 then { s with fix_power := false, actual_power := 0 }
  else
    let P := if P > period then period else P
    { s with power := (P : Int), actual_power := P, fix_power := true }

/-- Regulation step of HOTGUN::keepTemp: run the PID law, clamp its
result to [0, period] into actual_power and record it in h_power. -/
def regulate (s : HotGun) (temp : Nat) : HotGun :=
  let r := reqPower s.pid (i16 s.temp_set) (i16 temp)
  let ap := (constrainI r.1 0 (period : Nat)).toNat
  { s with pid := r.2, power := r.1, actual_power := ap,
           h_power := s.h_power.put ap }

/-- Fan hysteresis block at the end of HOTGUN::keepTemp: a running fan
stops only once the applied power is 0 and the sample is at or below the
cold threshold; a stopped fan restarts above the threshold. -/
def fanUpdate (s : HotGun) (temp : Nat) : HotGun :=
  if s.fan then
    if s.actual_power = 0 ∧ temp ≤ temp_gun_cold then
      { s with fanDuty := 0, fan := false }
    else s
  else
    if temp > temp_gun_cold then { s with fanDuty := s.fan_speed, fan := true }
    else s

/-- HOTGUN::keepTemp on the sampled temperature temp (a uint16_t):
record the sample; apply the thermal cutoff (on, not chilling, sample
strictly above temp_set + 20 forces heater off, power 0, Chilling); while
on and chilling, either recover (sample below temp_set − 8: clear chill,
reset the PID and regulate) or pin power to 0 and return early (skipping
the fan block, as the C return does); while on and not chilling,
regulate; while off without the fixed-power override, clear the applied
power and the heater output.  The uint16_t comparisons temp_set + 20 and
temp_set − 8 wrap mod 2^16 as in C. -/
def keepTemp (s : HotGun) (temp : Nat) : HotGun :=
  let t := temp % 65536
  let s := { s with h_temp := s.h_temp.put t }
  let s := if s.chill = false ∧ s.is_on ∧ t > (s.temp_set + 20) % 65536 then
             { s with gun := false, actual_power := 0, chill := true }
           else s
  if s.is_on then
    if s.chill then
      if t < (s.temp_set + 65536 - 8) % 65536 then
        fanUpdate (regulate { s with chill := false,
                                     pid := resetPID s.pid (-1) } t) t
      else { s with power := 0, actual_power := 0 }
    else fanUpdate (regulate s t) t
  else
    let s := if s.fix_power = false then
               { s with actual_power := 0, gun := false }
             else s
    fanUpdate s t

end Rework

namespace Rework

/-! ### Claim C10: save before init fails atomically -/

/-- C10: if CONFIG::save is invoked while can_write is still false (as
left by the constructor, before init() ever ran), it returns false and
changes nothing: no EEPROM byte is written and the read address, write
address and next-record-ID counter keep their values. -/
theorem C10_save_before_init_is_noop (eLen : Nat) (s : ConfigState)
    (h : s.can_write = false) : save eLen s = (false, s) := by
  simp [save, h]

/-- C10 witness: the constructor state on an erased 1024-byte EEPROM. -/
theorem C10_save_before_init_is_noop_witness :
    save 1024 (construct fun _ => 0) = (false, construct fun _ => 0) :=
  C10_save_before_init_is_noop 1024 (construct fun _ => 0) rfl

/-! ### Claim C7: saveCalibrationData leaves the mid reference stale -/

/-- C7 code evaluation: starting from references (587, 751, 850), saving
the calibration triple (600, 700, 800) packs the persisted word
correctly (800 in the high 10 bits, 700 in the middle, 600 in the low
bits) but leaves the in-memory references at (600, 751, 800): the source
assigns t_tip[2] twice (first tip[1], then tip[2]) and never writes
t_tip[1], so a subsequent getCalibrationData does not return the saved
triple. -/
theorem C7_saveCalibrationData_stale_mid :
    (saveCalibrationData ⟨⟨0, 600, 64, 0⟩, 587, 751, 850⟩ 600 700 800).Config.calibration
      = 800 * 1048576 + 700 * 1024 + 600 ∧
    getCalibrationData (saveCalibrationData ⟨⟨0, 600, 64, 0⟩, 587, 751, 850⟩ 600 700 800)
      = (600, 751, 800) ∧
    getCalibrationData (saveCalibrationData ⟨⟨0, 600, 64, 0⟩, 587, 751, 850⟩ 600 700 800)
      ≠ (600, 700, 800) := by
  decide

/-! ### Claim C8: the strict-increase invariant -/

/-- C8 (amended part): HOTGUN_CFG::init establishes the invariant — for
every stored calibration word, the references it installs are strictly
increasing, because any unpacked triple that is not strictly increasing
is replaced wholesale by the built-in defaults (587, 751, 850). -/
theorem C8_init_establishes_strict_increase (cd : Nat) :
    (initTips cd).1 < (initTips cd).2.1 ∧ (initTips cd).2.1 < (initTips cd).2.2 := by
  simp only [initTips]
  split
  · exact ⟨by norm_num [def_tip0, def_tip1], by norm_num [def_tip1, def_tip2]⟩
  · next h =>
      push_neg at h
      exact ⟨h.1, h.2⟩

/-- C8 counterexample: applyCalibrationData does not preserve the
invariant.  From the strictly increasing state (587, 751, 850), applying
the strictly increasing input (950, 960, 970) yields (950, 960, 900)
because the high point is capped at max_temp = 900, so t_tip[1] <
t_tip[2] fails afterwards. -/
theorem C8_apply_breaks_strict_increase :
    getCalibrationData (applyCalibrationData ⟨⟨0, 600, 64, 0⟩, 587, 751, 850⟩ 950 960 970)
      = (950, 960, 900) ∧
    ¬ (applyCalibrationData ⟨⟨0, 600, 64, 0⟩, 587, 751, 850⟩ 950 960 970).t_tip1
      < (applyCalibrationData ⟨⟨0, 600, 64, 0⟩, 587, 751, 850⟩ 950 960 970).t_tip2 := by
  decide

/-! ### Claim C2: the burst-fire gating pattern of syncCB -/

/-- PID state as set up by the PID constructor followed by resetPID. -/
def PID0 : PIDState := ⟨0, 0, false, 0, 0, 638, 196, 1⟩

/-- HOTGUN state at a cycle boundary with actual_power = 30: the tick
counter has just wrapped to 0 and the heater output was raised. -/
def gun30 : HotGun :=
  { pid := PID0, power := 30, temp_set := 0, fan_speed := 0, cnt := 0,
    actual_power := 30, active := true, is_on := true, fan := false,
    fix_power := false, chill := false, last_period := 0,
    h_power := HISTORY.initH, h_temp := HISTORY.initH, gun := true,
    fanDuty := 0 }

/-- Iterated zero-cross edges from a state (the edge time is irrelevant
to the gating pattern and fixed at 0). -/
def syncN (s : HotGun) : Nat → HotGun
  | 0 => s
  | n + 1 => (syncCB 0 (syncN s n)).1

/-- Return value of the (n+1)-st zero-cross edge from a state. -/
def syncRet (s : HotGun) (n : Nat) : Bool := (syncCB 0 (syncN s n)).2

/-- C2: with period = 100 and actual_power = 30, over 100 consecutive
zero-cross edges starting at a cycle boundary, the heater output (and
the active latch) is high exactly after the edges whose tick count
modulo 100 is below 30 — i.e. it is turned on at the wraparound edge,
stays on for the first 30 ticks, is turned off when the counter reaches
actual_power = 30 and stays off for the remaining 70 ticks; syncCB
returns true exactly at the wraparound edge; and the state after 100
edges equals the starting state, so the pattern repeats identically. -/
theorem C2_syncCB_burst_pattern :
    (∀ i : Fin 100,
      ((syncN gun30 (i.1 + 1)).active = decide ((i.1 + 1) % 100 < 30)) ∧
      ((syncN gun30 (i.1 + 1)).gun = decide ((i.1 + 1) % 100 < 30)) ∧
      (syncRet gun30 i.1 = decide ((i.1 + 1) % 100 = 0))) ∧
    syncN gun30 100 = gun30 := by
  decide

end Rework

namespace Rework

/-! ### Claim C3: round-robin writes lose the newest record -/

/-- Erased EEPROM tape (all bytes 0). -/
def ee0 : Nat → Nat := fun _ => 0

/-- C3 code evaluation at the failing input: a region of eLen = 32 bytes
(capacity C = 2 slots) that receives N = 3 consecutive saves.  Because
the wrap test is wAddr > eLength instead of wAddr + record_size > eLength,
the write address after the second save is 32 — the region end — so the
third record (ID 3) is written entirely outside the region at addresses
32..47, and only then does the address wrap to 0.  The recoverable slots
of the region thus hold IDs 1 and 2: the two most recent records are
IDs 2 and 3, and the newest record is silently lost to the region scan. -/
theorem C3_newest_record_lost :
    ((save 32 (init 32 ee0 ⟨0, 600, 64, 0⟩)).2.wAddr = 16) ∧
    ((save 32 (save 32 (init 32 ee0 ⟨0, 600, 64, 0⟩)).2).2.wAddr = 32) ∧
    ((save 32 (save 32 (save 32 (init 32 ee0 ⟨0, 600, 64, 0⟩)).2).2).2.wAddr = 0) ∧
    ((readRecord (save 32 (save 32 (save 32 (init 32 ee0 ⟨0, 600, 64, 0⟩)).2).2).2.eeprom 0).map
        Prod.fst = some 1) ∧
    ((readRecord (save 32 (save 32 (save 32 (init 32 ee0 ⟨0, 600, 64, 0⟩)).2).2).2.eeprom 16).map
        Prod.fst = some 2) ∧
    (∀ a ∈ slotAddrs 32,
      (readRecord (save 32 (save 32 (save 32 (init 32 ee0 ⟨0, 600, 64, 0⟩)).2).2).2.eeprom a).map
        Prod.fst ≠ some 3) ∧
    ((readRecord (save 32 (save 32 (save 32 (init 32 ee0 ⟨0, 600, 64, 0⟩)).2).2).2.eeprom 32).map
        Prod.fst = some 3) := by
  decide

/-! ### Claim C4: the init scan stops at the first undecodable slot -/

/-- EEPROM tape whose slot 0 is erased (all zero, hence undecodable) and
whose slot 1 holds a decodable record with ID 7 and all-zero payload
(checksum byte 1 at offset 31). -/
def eeC4 : Nat → Nat := fun a => if a = 16 then 7 else if a = 31 then 1 else 0

/-- C4 counterexample: on a 2-slot region whose first slot is erased but
whose second slot decodes (ID 7), the CONFIG::init scan finds nothing —
the loop body breaks at the first undecodable slot, so the decodable
slot after it is never counted and init starts empty (read and write
addresses 0), contrary to scanning every slot address of the region. -/
theorem C4_counterexample_valid_slot_ignored :
    (readRecord eeC4 16).map Prod.fst = some 7 ∧
    scanValid eeC4 (slotAddrs 32) = [] ∧
    (init 32 eeC4 ⟨0, 600, 64, 0⟩).wAddr = 0 ∧
    (init 32 eeC4 ⟨0, 600, 64, 0⟩).rAddr = 0 := by
  decide

/-- C4 (amended): the init scan visits slot addresses in increasing
order and stops at the first undecodable slot: the scanned slots are
exactly the longest decodable head of the slot-address list (each
paired with its decoded record), so the min/max-ID tracking and the
valid-slot count reflect only that head, not slots beyond the first
undecodable one. -/
theorem C4_scan_is_decodable_head (e : Nat → Nat) (addrs : List Nat) :
    (scanValid e addrs).map Prod.fst
      = addrs.takeWhile (fun a => (readRecord e a).isSome) ∧
    (∀ p ∈ scanValid e addrs, readRecord e p.1 = some p.2) := by
  induction addrs with
  | nil => exact ⟨rfl, by intro p hp; cases hp⟩
  | cons a rest ih =>
      constructor
      · show (scanValid e (a :: rest)).map Prod.fst = _
        rw [List.takeWhile_cons]
        cases hr : readRecord e a with
        | none => simp [scanValid, hr]
        | some v => simp [scanValid, hr, ih.1]
      · intro p hp
        unfold scanValid at hp
        cases hr : readRecord e a with
        | none => rw [hr] at hp; cases hp
        | some v =>
            rw [hr] at hp
            rcases List.mem_cons.mp hp with h | h
            · subst h; simpa using hr
            · exact ih.2 p h

/-- C4 witness: the amended scan characterization applied to the
concrete two-slot tape of the counterexample input. -/
theorem C4_scan_is_decodable_head_witness :
    ((scanValid eeC4 (slotAddrs 32)).map Prod.fst
      = (slotAddrs 32).takeWhile (fun a => (readRecord eeC4 a).isSome)) ∧
    (∀ p ∈ scanValid eeC4 (slotAddrs 32), readRecord eeC4 p.1 = some p.2) :=
  C4_scan_is_decodable_head eeC4 (slotAddrs 32)

/-! ### Claim C5, counterexample part -/

/-- C5 counterexample: flipping bit 0 of byte 0 (the first ID byte)
turns the record bytes 1,0,...,0 into 0,0,...,0 without changing the
checksum (both are 1), because the accumulator c = c*4 + byte works mod
2^8 and the first byte is multiplied by 4^11 ≡ 0.  Stored alongside the
checksum byte 1, both versions validate in readRecord, so the flipped
record does not fail validation. -/
theorem C5_counterexample_flip_undetected :
    checksum [1, 0, 0, 0, 0, 0, 0, 0, 0, 0, 0, 0]
      = checksum [0, 0, 0, 0, 0, 0, 0, 0, 0, 0, 0, 0] ∧
    (1 : Nat) ^^^ 2 ^ 0 = 0 ∧
    (readRecord (fun a => if a = 0 then 1 else if a = 15 then 1 else 0) 0).isSome = true ∧
    (readRecord (fun a => if a = 15 then 1 else 0) 0).isSome = true := by
  decide

end Rework

namespace Rework

/-! ### Claim C1: thermal cutoff and the Chilling state -/

/-- HOTGUN state that is switched on with setpoint ts and chill flag ch,
with a freshly reset PID and no pending power. -/
def gunOn (ts : Nat) (ch : Bool) : HotGun :=
  { pid := PID0, power := 0, temp_set := ts, fan_speed := 0, cnt := 0,
    actual_power := 0, active := false, is_on := true, fan := false,
    fix_power := false, chill := ch, last_period := 0,
    h_power := HISTORY.initH, h_temp := HISTORY.initH, gun := false,
    fanDuty := 0 }

/-- C1 counterexample: with the controller on, not chilling, and
setpoint S = 100, a keepTemp sample at exactly S + 20 = 120 does not
enter Chilling — the cutoff fires only strictly above S + 20 — so the
claim that a sample at S + 20 or above forces actual_power to 0 and the
Chilling state is false at this input. -/
theorem C1_counterexample_sample_at_margin :
    (gunOn 100 false).is_on = true ∧ (gunOn 100 false).chill = false ∧
    (keepTemp (gunOn 100 false) 120).chill = false := by
  decide

/-- Projection fact: the fan hysteresis block never changes chill. -/
theorem fanUpdate_chill (s : HotGun) (t : Nat) :
    (fanUpdate s t).chill = s.chill := by
  unfold fanUpdate
  split_ifs <;> rfl

/-- Projection fact: the regulation step never changes chill. -/
theorem regulate_chill (s : HotGun) (t : Nat) :
    (regulate s t).chill = s.chill := rfl

/-- C1 (amended): with the setpoint in uint16_t range (8 ≤ temp_set and
temp_set + 20 < 2^16) and a uint16_t sample, (a) if the controller is on
and not chilling, a sample strictly above temp_set + 20 forces the
heater output off, actual_power to 0 and the Chilling state on that
keepTemp call; (b) while on and chilling, any sample not strictly below
temp_set − 8 keeps actual_power at 0 and stays in Chilling; (c) a sample
strictly below temp_set − 8 leaves Chilling, resets the PID state and
resumes regulation (the call reduces to the regulation and fan blocks on
the chill-cleared, PID-reset state). -/
theorem C1_thermal_cutoff_amended (s : HotGun) (temp : Nat)
    (h8 : 8 ≤ s.temp_set) (h20 : s.temp_set + 20 < 65536)
    (ht : temp < 65536) :
    (s.is_on = true → s.chill = false → s.temp_set + 20 < temp →
      (keepTemp s temp).actual_power = 0 ∧ (keepTemp s temp).chill = true ∧
      (keepTemp s temp).gun = false) ∧
    (s.is_on = true → s.chill = true → s.temp_set - 8 ≤ temp →
      (keepTemp s temp).actual_power = 0 ∧ (keepTemp s temp).chill = true) ∧
    (s.is_on = true → s.chill = true → temp < s.temp_set - 8 →
      keepTemp s temp
        = fanUpdate (regulate { s with h_temp := s.h_temp.put temp,
                                       chill := false,
                                       pid := resetPID s.pid (-1) } temp) temp ∧
      (keepTemp s temp).chill = false) := by
  have e1 : temp % 65536 = temp := Nat.mod_eq_of_lt ht
  have e2 : (s.temp_set + 20) % 65536 = s.temp_set + 20 := Nat.mod_eq_of_lt h20
  have e3 : (s.temp_set + 65528) % 65536 = s.temp_set - 8 := by omega
  refine ⟨?_, ?_, ?_⟩
  · intro hon hch hlt
    have hnlt : ¬ (temp < s.temp_set - 8) := by omega
    simp [keepTemp, e1, e2, e3, hon, hch, hlt, hnlt]
  · intro hon hch hge
    have hnlt : ¬ (temp < s.temp_set - 8) := by omega
    simp [keepTemp, e1, e2, e3, hon, hch, hnlt]
  · intro hon hch hlt
    constructor
    · simp [keepTemp, e1, e2, e3, hon, hch, hlt]
    · simp [keepTemp, e1, e2, e3, hon, hch, hlt, fanUpdate_chill, regulate_chill]

/-- C1 witness: the amended cutoff behaviour at the concrete chilling
state with setpoint 100 and a cooled sample 50. -/
theorem C1_thermal_cutoff_amended_witness :
    ((gunOn 100 true).is_on = true → (gunOn 100 true).chill = false →
      (gunOn 100 true).temp_set + 20 < 50 →
      (keepTemp (gunOn 100 true) 50).actual_power = 0 ∧
      (keepTemp (gunOn 100 true) 50).chill = true ∧
      (keepTemp (gunOn 100 true) 50).gun = false) ∧
    ((gunOn 100 true).is_on = true → (gunOn 100 true).chill = true →
      (gunOn 100 true).temp_set - 8 ≤ 50 →
      (keepTemp (gunOn 100 true) 50).actual_power = 0 ∧
      (keepTemp (gunOn 100 true) 50).chill = true) ∧
    ((gunOn 100 true).is_on = true → (gunOn 100 true).chill = true →
      50 < (gunOn 100 true).temp_set - 8 →
      keepTemp (gunOn 100 true) 50
        = fanUpdate (regulate { (gunOn 100 true) with
                                h_temp := (gunOn 100 true).h_temp.put 50,
                                chill := false,
                                pid := resetPID (gunOn 100 true).pid (-1) } 50) 50 ∧
      (keepTemp (gunOn 100 true) 50).chill = false) :=
  C1_thermal_cutoff_amended (gunOn 100 true) 50 (by decide) (by decide) (by decide)

end Rework

namespace Rework

/-! ### Claim C9: history mean and dispersion -/

/-- Setting slot n and taking n+1 elements appends the new element to
the first n. -/
theorem take_set_concat {α : Type} :
    ∀ (q : List α) (n : Nat) (a : α), n < q.length →
      (q.set n a).take (n + 1) = q.take n ++ [a]
  | [], n, a, h => by cases h
  | x :: xs, 0, a, _ => rfl
  | x :: xs, n + 1, a, h => by
      have := take_set_concat xs n a (Nat.lt_of_succ_lt_succ h)
      simp [List.set, List.take, this]

/-- Filling an unwrapped HISTORY buffer: as long as the total stays at
or below capacity, consecutive puts append (reduced mod 2^16), the fill
count grows accordingly and the backing array keeps 16 slots. -/
theorem put_foldl_fill :
    ∀ (xs : List Nat) (h : HISTORY), h.queue.length = 16 →
      h.len + xs.length ≤ 16 →
      (xs.foldl HISTORY.put h).len = h.len + xs.length ∧
      (xs.foldl HISTORY.put h).queue.length = 16 ∧
      (xs.foldl HISTORY.put h).queue.take (h.len + xs.length)
        = h.queue.take h.len ++ xs.map (· % 65536)
  | [], h, hq, hle => by simp [hq]
  | x :: xs, h, hq, hle => by
      have hcons : (x :: xs).length = xs.length + 1 := List.length_cons x xs
      have hlt : h.len < 16 := by omega
      have hput : HISTORY.put h x =
          { h with queue := h.queue.set h.len (x % 65536), len := h.len + 1 } := by
        unfold HISTORY.put
        rw [if_pos hlt]
      have hplen : (HISTORY.put h x).len = h.len + 1 := by rw [hput]
      have hqput : (HISTORY.put h x).queue = h.queue.set h.len (x % 65536) := by
        rw [hput]
      have hq2 : (HISTORY.put h x).queue.length = 16 := by
        rw [hqput, List.length_set, hq]
      have hle2 : (HISTORY.put h x).len + xs.length ≤ 16 := by
        rw [hplen]; omega
      have ih := put_foldl_fill xs (HISTORY.put h x) hq2 hle2
      refine ⟨?_, ih.2.1, ?_⟩
      · rw [List.foldl_cons, ih.1, hplen, hcons]; omega
      · have harith : h.len + (x :: xs).length = (HISTORY.put h x).len + xs.length := by
          rw [hplen, hcons]; omega
        rw [List.foldl_cons, harith, ih.2.2, hqput, hplen,
            take_set_concat h.queue h.len (x % 65536) (by omega), List.map_cons]
        simp

/-- headD of a list equals headD of its first element taken alone. -/
theorem headD_take_one {α : Type} (q : List α) (d : α) :
    q.headD d = (q.take 1).headD d := by
  cases q <;> rfl

end Rework

namespace Rework

/-- A fold that reduces mod 2^32 at every step agrees with the plain sum
when the total fits. -/
theorem foldl_mod32_eq_sum (g : Nat → Nat) :
    ∀ (l : List Nat) (a : Nat), a + (l.map g).sum < 4294967296 →
      l.foldl (fun sm q => (sm + g q) % 4294967296) a = a + (l.map g).sum
  | [], a, _ => by simp
  | x :: l, a, hlt => by
      rw [List.foldl_cons]
      have hin : a + g x + (l.map g).sum < 4294967296 := by
        simp only [List.map_cons, List.sum_cons] at hlt
        omega
      have hx : (a + g x) % 4294967296 = a + g x := by
        apply Nat.mod_eq_of_lt
        omega
      rw [hx, foldl_mod32_eq_sum g l (a + g x) hin]
      simp only [List.map_cons, List.sum_cons]
      omega

/-- Cast of the accumulated squared deviations to ℚ. -/
theorem cast_sq_sum (m : Nat) :
    ∀ l : List Nat,
      (((l.map fun v => ((Int.ofNat v - Int.ofNat m) ^ 2).toNat).sum : Nat) : ℚ)
        = (l.map fun (v : Nat) => ((v : ℚ) - (m : ℚ)) ^ 2).sum
  | [] => by simp
  | x :: l => by
      simp only [List.map_cons, List.sum_cons, Nat.cast_add]
      rw [cast_sq_sum m l]
      have hnn : (0 : Int) ≤ (Int.ofNat x - Int.ofNat m) ^ 2 := sq_nonneg _
      have hcast : (((Int.ofNat x - Int.ofNat m) ^ 2).toNat : ℚ)
          = ((x : ℚ) - (m : ℚ)) ^ 2 := by
        have h2 : ((((Int.ofNat x - Int.ofNat m) ^ 2).toNat : Int) : ℚ)
            = (((Int.ofNat x - Int.ofNat m) ^ 2 : Int) : ℚ) := by
          rw [Int.toNat_of_nonneg hnn]
        push_cast [Int.ofNat_eq_natCast] at h2 ⊢
        linarith
      rw [hcast]

end Rework

namespace Rework

/-- C9 (amended): for any sequence of at most 16 samples below 2^14 (so
that no 32-bit accumulator can wrap) put into an empty HISTORY,
average() is 0 when empty, the element itself for one element, and in
general the round-half-up mean (sum + len/2) / len; dispersion() is the
sentinel 1000 for fewer than 3 elements, and otherwise the population
variance around the rounded mean m = average() biased by +2, i.e.
(sum of (v − m)^2 + 2·len) / len — not the unbiased population
variance itself. -/
theorem C9_history_statistics (xs : List Nat) (h16 : xs.length ≤ 16)
    (hv : ∀ v ∈ xs, v < 16384) :
    ((xs.foldl HISTORY.put HISTORY.initH).average
        = if xs.length = 0 then 0 else (xs.sum + xs.length / 2) / xs.length) ∧
    (xs.length < 3 → (xs.foldl HISTORY.put HISTORY.initH).dispersion = 1000) ∧
    (3 ≤ xs.length →
      (xs.foldl HISTORY.put HISTORY.initH).dispersion
        = ((xs.map fun (v : Nat) =>
              ((v : ℚ) - (((xs.sum + xs.length / 2) / xs.length : Nat) : ℚ)) ^ 2).sum
            + 2 * xs.length) / (xs.length : ℚ)) := by
  have hq0 : HISTORY.initH.queue.length = 16 := by
    simp [HISTORY.initH]
  have hl0 : HISTORY.initH.len = 0 := rfl
  have hfill := put_foldl_fill xs HISTORY.initH hq0 (by rw [hl0]; omega)
  have hlen : (xs.foldl HISTORY.put HISTORY.initH).len = xs.length := by
    have := hfill.1
    rw [hl0, Nat.zero_add] at this
    exact this
  have hmap : xs.map (· % 65536) = xs := by
    conv_rhs => rw [← List.map_id xs]
    refine List.map_congr_left ?_
    intro a ha
    have := hv a ha
    simp only [id]
    omega
  have htake : (xs.foldl HISTORY.put HISTORY.initH).queue.take xs.length = xs := by
    have := hfill.2.2
    rw [hl0, Nat.zero_add, hmap] at this
    rw [this]
    simp [HISTORY.initH]
  have havg : (xs.foldl HISTORY.put HISTORY.initH).average
      = if xs.length = 0 then 0 else (xs.sum + xs.length / 2) / xs.length := by
    unfold HISTORY.average
    rw [hlen, htake]
    rcases Nat.eq_zero_or_pos xs.length with h0 | hpos
    · simp [h0]
    · rcases Nat.lt_or_ge xs.length 2 with h1 | h2
      · have hx1 : xs.length = 1 := by omega
        obtain ⟨x, hxeq⟩ : ∃ x, xs = [x] := by
          cases xs with
          | nil => simp at hx1
          | cons a l =>
              cases l with
              | nil => exact ⟨a, rfl⟩
              | cons b m => simp at hx1
        subst hxeq
        have hx : x < 16384 := hv x (by simp)
        have hxq : (([x] : List Nat).foldl HISTORY.put HISTORY.initH).queue.headD 0 = x := by
          rw [headD_take_one _ 0]
          have h1eq : ([x] : List Nat).length = 1 := rfl
          rw [← h1eq, htake]
          rfl
        rw [show ([x] : List Nat).length = 1 from rfl, if_neg (by omega), if_pos rfl, hxq]
        simp
      · rw [if_neg (by omega), if_neg (by omega), if_neg (by omega),
            ← List.sum_eq_foldl]
  refine ⟨havg, ?_, ?_⟩
  · intro h3
    unfold HISTORY.dispersion
    rw [hlen, if_pos h3]
  · intro h3
    have hpos : 0 < xs.length := by omega
    have hm : (xs.foldl HISTORY.put HISTORY.initH).average
        = (xs.sum + xs.length / 2) / xs.length := by
      rw [havg, if_neg (by omega)]
    set m : Nat := (xs.sum + xs.length / 2) / xs.length with hmdef
    have hsum16 : xs.sum ≤ xs.length * 16383 := by
      have := List.sum_le_card_nsmul xs 16383 (fun x hx => Nat.le_of_lt_succ (hv x hx))
      simpa [smul_eq_mul] using this
    have hmlt : m < 16384 := by
      rw [hmdef, Nat.div_lt_iff_lt_mul hpos]
      omega
    have hsq_bound : ∀ v ∈ xs, ((Int.ofNat v - Int.ofNat m) ^ 2).toNat ≤ 268402689 := by
      intro v hvin
      have hvb : v < 16384 := hv v hvin
      have hv0 : (0 : Int) ≤ Int.ofNat v := Int.natCast_nonneg v
      have hm0 : (0 : Int) ≤ Int.ofNat m := Int.natCast_nonneg m
      have hvle : (Int.ofNat v : Int) ≤ 16383 := by
        simp only [Int.ofNat_eq_natCast]
        exact_mod_cast Nat.le_of_lt_succ hvb
      have hmle : (Int.ofNat m : Int) ≤ 16383 := by
        simp only [Int.ofNat_eq_natCast]
        exact_mod_cast Nat.le_of_lt_succ hmlt
      have habs : (Int.ofNat v - Int.ofNat m) ^ 2 ≤ 268402689 := by
        nlinarith [hv0, hm0, hvle, hmle]
      have hnn : (0 : Int) ≤ (Int.ofNat v - Int.ofNat m) ^ 2 := sq_nonneg _
      omega
    have hsum_bound :
        (xs.map fun v => ((Int.ofNat v - Int.ofNat m) ^ 2).toNat).sum ≤ 4294443024 := by
      have := List.sum_le_card_nsmul
        (xs.map fun v => ((Int.ofNat v - Int.ofNat m) ^ 2).toNat) 268402689
        (by
          intro a ha
          obtain ⟨v, hvin, hveq⟩ := List.mem_map.mp ha
          exact hveq ▸ hsq_bound v hvin)
      rw [List.length_map] at this
      calc (xs.map fun v => ((Int.ofNat v - Int.ofNat m) ^ 2).toNat).sum
          ≤ xs.length • 268402689 := this
        _ ≤ 16 * 268402689 := by
            rw [smul_eq_mul]
            exact Nat.mul_le_mul_right _ h16
        _ = 4294443024 := by norm_num
    unfold HISTORY.dispersion
    rw [hlen, if_neg (by omega)]
    show (((((List.foldl
          (fun sm (q : Nat) => (sm + ((Int.ofNat q
              - Int.ofNat (xs.foldl HISTORY.put HISTORY.initH).average) ^ 2).toNat)
            % 4294967296) 0
          (List.take xs.length (xs.foldl HISTORY.put HISTORY.initH).queue)
          + 2 * xs.length) % 4294967296 : Nat) : ℚ) / (xs.length : ℚ))
        = (((xs.map fun (v : Nat) => ((v : ℚ) - (m : ℚ)) ^ 2).sum
            + 2 * xs.length) / (xs.length : ℚ)))
    rw [hm, htake]
    rw [foldl_mod32_eq_sum (fun v => ((Int.ofNat v - Int.ofNat m) ^ 2).toNat) xs 0
        (by omega)]
    rw [Nat.zero_add]
    have hs2 : ((xs.map fun v => ((Int.ofNat v - Int.ofNat m) ^ 2).toNat).sum
        + 2 * xs.length) % 4294967296
        = (xs.map fun v => ((Int.ofNat v - Int.ofNat m) ^ 2).toNat).sum
          + 2 * xs.length := by
      apply Nat.mod_eq_of_lt
      omega
    rw [hs2, Nat.cast_add, cast_sq_sum m xs]
    norm_num

end Rework

namespace Rework

/-- C9 witness: the amended statistics applied at the sample list
0, 0, 4: the rounded mean is (4 + 1) / 3 = 1 and the dispersion is
(1 + 1 + 9 + 6) / 3. -/
theorem C9_history_statistics_witness :
    ((([0, 0, 4] : List Nat).foldl HISTORY.put HISTORY.initH).average
        = if ([0, 0, 4] : List Nat).length = 0 then 0
          else (([0, 0, 4] : List Nat).sum + ([0, 0, 4] : List Nat).length / 2)
                / ([0, 0, 4] : List Nat).length) ∧
    (([0, 0, 4] : List Nat).length < 3 →
      (([0, 0, 4] : List Nat).foldl HISTORY.put HISTORY.initH).dispersion = 1000) ∧
    (3 ≤ ([0, 0, 4] : List Nat).length →
      (([0, 0, 4] : List Nat).foldl HISTORY.put HISTORY.initH).dispersion
        = ((([0, 0, 4] : List Nat).map fun (v : Nat) =>
              ((v : ℚ) - (((([0, 0, 4] : List Nat).sum
                  + ([0, 0, 4] : List Nat).length / 2)
                  / ([0, 0, 4] : List Nat).length : Nat) : ℚ)) ^ 2).sum
            + 2 * ([0, 0, 4] : List Nat).length) / (([0, 0, 4] : List Nat).length : ℚ)) :=
  C9_history_statistics [0, 0, 4] (by decide) (by decide)

/-- C9 counterexample: for the samples 0, 0, 4 the code returns
(1 + 1 + 9 + 2·3) / 3 = 17/3, which is neither the population variance
around the rounded mean 1 (namely 11/3) nor the population variance
around the exact mean 4/3 (namely 32/9): dispersion() carries the
+2·len bias the claim omits. -/
theorem C9_counterexample_dispersion_bias :
    ((([0, 0, 4] : List Nat).foldl HISTORY.put HISTORY.initH).dispersion = 17 / 3) ∧
    (17 / 3 : ℚ) ≠ 11 / 3 ∧ (17 / 3 : ℚ) ≠ 32 / 9 := by
  refine ⟨?_, by norm_num, by norm_num⟩
  have hlen : (([0, 0, 4] : List Nat).foldl HISTORY.put HISTORY.initH).len = 3 := by decide
  have havg : (([0, 0, 4] : List Nat).foldl HISTORY.put HISTORY.initH).average = 1 := by decide
  have htk : List.take 3 (([0, 0, 4] : List Nat).foldl HISTORY.put HISTORY.initH).queue
      = [0, 0, 4] := by decide
  unfold HISTORY.dispersion
  rw [hlen, if_neg (by omega)]
  show (((((List.foldl
        (fun sm (q : Nat) => (sm + ((Int.ofNat q
            - Int.ofNat (([0, 0, 4] : List Nat).foldl HISTORY.put HISTORY.initH).average) ^ 2).toNat)
          % 4294967296) 0
        (List.take 3 (([0, 0, 4] : List Nat).foldl HISTORY.put HISTORY.initH).queue)
        + 2 * 3) % 4294967296 : Nat) : ℚ) / ((3 : Nat) : ℚ))
      = (17 / 3 : ℚ))
  rw [havg, htk]
  have hX : (List.foldl
      (fun sm (q : Nat) => (sm + ((Int.ofNat q - Int.ofNat 1) ^ 2).toNat) % 4294967296) 0
      ([0, 0, 4] : List Nat) + 2 * 3) % 4294967296 = 17 := by decide
  rw [hX]
  norm_num

end Rework

namespace Rework

/-! ### Claim C5, amended characterization -/

/-- Collapsing the per-step mod 256 of the checksum accumulator to a
single final reduction. -/
theorem chk_foldl_mod :
    ∀ (l : List Nat) (a : Nat),
      l.foldl chkStep (a % 256) = (l.foldl (fun x y => 4 * x + y) a) % 256
  | [], a => by simp
  | x :: l, a => by
      rw [List.foldl_cons, List.foldl_cons]
      have h1 : chkStep (a % 256) x = (4 * a + x) % 256 := by
        unfold chkStep
        omega
      rw [h1, chk_foldl_mod l (4 * a + x)]

/-- Scaling form of the pure accumulator fold: running it from a is
running it from 0 plus a shifted by 4 to the length. -/
theorem chk_foldl_shift :
    ∀ (l : List Nat) (a : Nat),
      l.foldl (fun x y => 4 * x + y) a
        = a * 4 ^ l.length + l.foldl (fun x y => 4 * x + y) 0
  | [], a => by simp
  | x :: l, a => by
      rw [List.foldl_cons, List.foldl_cons, chk_foldl_shift l (4 * a + x),
          chk_foldl_shift l (4 * 0 + x)]
      simp [List.length_cons, pow_succ]
      ring

/-- Adding D to a number preserves its residue mod 256 exactly when 256
divides D. -/
theorem add_mod256_eq_iff (n D : Nat) : ((n + D) % 256 = n % 256) ↔ 256 ∣ D := by
  constructor
  · intro h
    have hme : n ≡ n + D [MOD 256] := h.symm
    have := (Nat.modEq_iff_dvd' (Nat.le_add_right n D)).mp hme
    simpa using this
  · intro h
    have hme : n ≡ n + D [MOD 256] :=
      (Nat.modEq_iff_dvd' (Nat.le_add_right n D)).mpr (by simpa using h)
    exact hme.symm

/-- 256 divides a power of two exactly from exponent 8 on. -/
theorem pow2_dvd256_iff (e : Nat) : (256 ∣ 2 ^ e) ↔ 8 ≤ e := by
  constructor
  · intro h
    by_contra hlt
    push_neg at hlt
    have h1 : (2 : Nat) ^ e < 2 ^ 8 := Nat.pow_lt_pow_right (by norm_num) hlt
    have h2 : (2 : Nat) ^ 8 ≤ 2 ^ e :=
      Nat.le_of_dvd (Nat.pos_pow_of_pos e (by norm_num)) (by norm_num at h ⊢; exact h)
    omega
  · intro h
    have := pow_dvd_pow 2 h
    norm_num at this ⊢
    exact this

set_option maxRecDepth 4000 in
/-- Exclusive-or with a single bit either adds it or removes it. -/
theorem xor_pow_cases :
    ∀ (t : Fin 256) (k : Fin 8),
      (t.1 ^^^ 2 ^ k.1 = t.1 + 2 ^ k.1) ∨ ((t.1 ^^^ 2 ^ k.1) + 2 ^ k.1 = t.1) := by
  decide

/-- Checksum of a 12-byte record written as prefix, distinguished byte
and suffix. -/
theorem checksum_split (p suf : List Nat) (x : Nat) :
    checksum (p ++ x :: suf)
      = ((4 * p.foldl (fun a b => 4 * a + b) 0 + x) * 4 ^ suf.length
          + suf.foldl (fun a b => 4 * a + b) 0 + 1) % 256 := by
  unfold checksum
  have h1 : (p ++ x :: suf).foldl chkStep 0
      = ((p ++ x :: suf).foldl (fun a b => 4 * a + b) 0) % 256 := by
    have := chk_foldl_mod (p ++ x :: suf) 0
    simpa using this
  have h2 : (p ++ x :: suf).foldl (fun a b => 4 * a + b) 0
      = (4 * p.foldl (fun a b => 4 * a + b) 0 + x) * 4 ^ suf.length
        + suf.foldl (fun a b => 4 * a + b) 0 := by
    rw [List.foldl_append, List.foldl_cons, chk_foldl_shift suf]
  rw [h1, h2]
  omega

/-- C5 (amended): write a stored record as its 12 bytes (4 ID bytes then
8 payload bytes); flipping bit k of the byte with suf.length bytes after
it (byte index i = 11 − suf.length) changes the checksum
c = c*4 + byte (mod 2^8, +1) exactly when k + 2·suf.length < 8 — so
flips anywhere in the first 8 bytes are never detected, while every flip
in the last payload byte is; and the all-zero (erased) slot never
matches its stored checksum byte 0. -/
theorem C5_checksum_flip_characterization :
    (∀ (p suf : List Nat) (t k : Nat),
      p.length + suf.length = 11 → t < 256 → k < 8 →
      (checksum (p ++ (t ^^^ 2 ^ k) :: suf) = checksum (p ++ t :: suf)
        ↔ 8 ≤ k + 2 * suf.length)) ∧
    checksum (List.replicate 12 0) ≠ 0 := by
  constructor
  · intro p suf t k _ ht hk
    have hpow : (2 : Nat) ^ k * 4 ^ suf.length = 2 ^ (k + 2 * suf.length) := by
      rw [show (4 : Nat) = 2 ^ 2 from rfl, ← pow_mul, ← pow_add]
    rw [checksum_split, checksum_split]
    set u := t ^^^ 2 ^ k with hu
    rcases xor_pow_cases ⟨t, ht⟩ ⟨k, hk⟩ with hx | hx <;>
      (simp only at hx; rw [← hu] at hx)
    · rw [hx]
      have hexp : (4 * p.foldl (fun a b => 4 * a + b) 0 + (t + 2 ^ k)) * 4 ^ suf.length
          + suf.foldl (fun a b => 4 * a + b) 0 + 1
          = ((4 * p.foldl (fun a b => 4 * a + b) 0 + t) * 4 ^ suf.length
              + suf.foldl (fun a b => 4 * a + b) 0 + 1) + 2 ^ k * 4 ^ suf.length := by
        ring
      rw [hexp, add_mod256_eq_iff, hpow, pow2_dvd256_iff]
    · rw [← hx]
      have hexp : (4 * p.foldl (fun a b => 4 * a + b) 0 + (u + 2 ^ k))
            * 4 ^ suf.length + suf.foldl (fun a b => 4 * a + b) 0 + 1
          = ((4 * p.foldl (fun a b => 4 * a + b) 0 + u) * 4 ^ suf.length
              + suf.foldl (fun a b => 4 * a + b) 0 + 1) + 2 ^ k * 4 ^ suf.length := by
        ring
      rw [hexp, eq_comm, add_mod256_eq_iff, hpow, pow2_dvd256_iff]
  · decide

/-- C5 witness: the characterization applied at the concrete record
1, 0, ..., 0 with a flip at bit 0 of the last payload byte (empty
suffix case taken as byte 11): 8 ≤ 0 + 2·11 so the flip of the first ID
byte is undetected, matching the counterexample. -/
theorem C5_checksum_flip_characterization_witness :
    checksum (([] : List Nat) ++ ((1 : Nat) ^^^ 2 ^ 0) :: List.replicate 11 0)
      = checksum (([] : List Nat) ++ (1 : Nat) :: List.replicate 11 0)
      ↔ 8 ≤ 0 + 2 * (List.replicate 11 (0 : Nat)).length :=
  C5_checksum_flip_characterization.1 [] (List.replicate 11 0) 1 0
    (by decide) (by decide) (by decide)

end Rework

namespace Rework

/-! ### Claim C6: the calibration round trip -/

/-- C6 counterexample: for the strictly increasing calibration
(500, 501, 502) — one raw unit per 100 Celsius — and x = 250, the round
trip tempHuman(tempInternal(250)) returns 200: the 10-step correction
loop cannot bridge the truncation error of so steep a segment, so the
claim fails for this calibration even though it is strictly increasing
and within the raw range. -/
theorem C6_counterexample_degenerate_calibration :
    tempHuman ⟨⟨0, 600, 64, 0⟩, 500, 501, 502⟩
        (tempInternal ⟨⟨0, 600, 64, 0⟩, 500, 501, 502⟩ 250) = 200 ∧
    200 + 1 < 250 := by
  decide

/-- Forward-then-back integer interpolation cannot overshoot. -/
theorem round_upper (u d : Nat) (hd : 0 < d) : ((u * d / 100) * 100) / d ≤ u := by
  calc (u * d / 100 * 100) / d ≤ (u * d) / d :=
        Nat.div_le_div_right (Nat.div_mul_le_self (u * d) 100)
    _ = u := Nat.mul_div_left u hd

/-- Forward-then-back integer interpolation loses at most 2 units when
the raw span of the segment is at least 51 per 100 Celsius. -/
theorem round_lower (u d : Nat) (hd : 51 ≤ d) :
    u ≤ ((u * d / 100) * 100) / d + 2 := by
  rcases Nat.le_total u 2 with h2 | h2
  · exact le_trans h2 (Nat.le_add_left 2 _)
  · have hd0 : 0 < d := by omega
    have hmul : (u - 2) * d ≤ (u * d / 100) * 100 := by
      rw [Nat.sub_mul]
      have hq : u * d ≤ 100 * (u * d / 100) + 99 := by
        have hdm := Nat.div_add_mod (u * d) 100
        have hm : (u * d) % 100 < 100 := Nat.mod_lt _ (by norm_num)
        omega
      generalize u * d = P at hq ⊢
      omega
    have := (Nat.le_div_iff_mul_le hd0).mpr hmul
    omega

/-- One decrement of the raw value lowers the segment interpolation by
at most 2 Celsius units when the raw span is at least 51. -/
theorem seg_step (tb d r : Nat) (hd : 51 ≤ d) (hr : tb + 1 ≤ r) :
    ((r - tb) * 100) / d ≤ ((r - 1 - tb) * 100) / d + 2 := by
  have he : (r - tb) * 100 = (r - 1 - tb) * 100 + 100 := by
    have h1 : r - tb = (r - 1 - tb) + 1 := by omega
    rw [h1]
    ring
  rw [he]
  calc ((r - 1 - tb) * 100 + 100) / d ≤ ((r - 1 - tb) * 100 + d + d) / d :=
        Nat.div_le_div_right (by omega)
    _ = ((r - 1 - tb) * 100) / d + 2 := by
        rw [Nat.add_div_right _ (by omega), Nat.add_div_right _ (by omega)]

/-- Truncating division of casts agrees with Nat division. -/
theorem tdiv_natCast (m n : Nat) :
    Int.tdiv (m : Int) (n : Int) = ((m / n : Nat) : Int) := rfl

/-- Reduction of a cast modulo the uint16_t range. -/
theorem u16_natCast (m : Nat) : u16 (m : Int) = m % 65536 := by
  unfold u16
  rw [show ((65536 : Int)) = ((65536 : Nat) : Int) from rfl, ← Int.natCast_mod,
      Int.toNat_natCast]

/-- The Arduino map on in-range Nat inputs is the integer linear
interpolation, reduced to the uint16_t range on assignment. -/
theorem u16_amap_nat (X lo hi olo ohi : Nat) (hX : lo ≤ X) (hlo : lo < hi)
    (ho : olo ≤ ohi) :
    u16 (amap X lo hi olo ohi)
      = (((X - lo) * (ohi - olo)) / (hi - lo) + olo) % 65536 := by
  unfold amap
  have e1 : (X : Int) - (lo : Int) = ((X - lo : Nat) : Int) := by omega
  have e2 : (ohi : Int) - (olo : Int) = ((ohi - olo : Nat) : Int) := by omega
  have e3 : (hi : Int) - (lo : Int) = ((hi - lo : Nat) : Int) := by omega
  rw [e1, e2, e3, ← Int.natCast_mul, tdiv_natCast, ← Int.natCast_add,
      u16_natCast]

end Rework

namespace Rework

/-- Invariant of the tempInternal correction loop on one segment of the
calibration curve: if tempHuman agrees with the segment interpolation
F r = cb + ((r − tb)·100)/d on [tb, U], the segment spans at least 51
raw units per 100 Celsius, and the loop starts within one unit above
the target (F r ≤ x + 1 and x ≤ F r + 1), then wherever the loop stops
— on the break, or by running out of fuel — the mapped value stays
within one unit of the target x. -/
theorem tiLoop_inv (s : HGCfg) (cb tb d U x : Nat)
    (hd : 51 ≤ d) (htb : 1 ≤ tb) (hU : U ≤ 65535) (hcbx : cb ≤ x)
    (heq : ∀ r, tb ≤ r → r ≤ U → tempHuman s r = cb + ((r - tb) * 100) / d) :
    ∀ (fuel r : Nat), tb ≤ r → r ≤ U →
      cb + ((r - tb) * 100) / d ≤ x + 1 →
      x ≤ cb + ((r - tb) * 100) / d + 1 →
      x ≤ tempHuman s (tiLoop s x fuel r) + 1 ∧
      tempHuman s (tiLoop s x fuel r) ≤ x + 1
  | 0, r, hr1, hr2, hub, hlb => by
      rw [show tiLoop s x 0 r = r from rfl, heq r hr1 hr2]
      exact ⟨hlb, hub⟩
  | fuel + 1, r, hr1, hr2, hub, hlb => by
      have hT : tempHuman s r = cb + ((r - tb) * 100) / d := heq r hr1 hr2
      rw [show tiLoop s x (fuel + 1) r
          = if tempHuman s r ≤ x then r else tiLoop s x fuel (dec16 r) from rfl]
      by_cases hstop : tempHuman s r ≤ x
      · rw [if_pos hstop, hT]
        exact ⟨hlb, hub⟩
      · rw [if_neg hstop]
        push_neg at hstop
        rw [hT] at hstop
        have hrtb : tb + 1 ≤ r := by
          by_contra hc
          push_neg at hc
          have hre : r = tb := by omega
          rw [hre, Nat.sub_self, Nat.zero_mul, Nat.zero_div] at hstop
          omega
        have hdec : dec16 r = r - 1 := by
          unfold dec16
          omega
        rw [hdec]
        have hstep : ((r - tb) * 100) / d ≤ ((r - 1 - tb) * 100) / d + 2 :=
          seg_step tb d r hd hrtb
        have hmono : ((r - 1 - tb) * 100) / d ≤ ((r - tb) * 100) / d :=
          Nat.div_le_div_right (Nat.mul_le_mul_right _ (by omega))
        exact tiLoop_inv s cb tb d U x hd htb hU hcbx heq fuel (r - 1)
          (by omega) (by omega) (by omega) (by omega)

end Rework

namespace Rework

/-- On the low segment [t_tip0, t_tip1] of a well-spaced calibration,
tempHuman is the integer interpolation 200 + ((r − t_tip0)·100)/span. -/
theorem tempHuman_low_seg (s : HGCfg) (h0 : 1 ≤ s.t_tip0)
    (h1 : s.t_tip0 + 51 ≤ s.t_tip1) (h2 : s.t_tip1 + 51 ≤ s.t_tip2)
    (_h3 : s.t_tip2 ≤ 1023) :
    ∀ r, s.t_tip0 ≤ r → r ≤ s.t_tip1 →
      tempHuman s r = 200 + ((r - s.t_tip0) * 100) / (s.t_tip1 - s.t_tip0) := by
  intro r hr1 hr2
  unfold tempHuman ambient_temp ambient_tempC temp_tip0 temp_tip1 temp_tip2
  rw [if_neg (by omega), if_neg (by omega)]
  rcases Nat.lt_or_ge r s.t_tip1 with hlt | hge
  · rw [if_neg (by omega)]
    rw [u16_amap_nat r s.t_tip0 s.t_tip1 200 300 hr1 (by omega) (by omega)]
    rw [show (300 - 200 : Nat) = 100 from rfl]
    have hb : (r - s.t_tip0) * 100 / (s.t_tip1 - s.t_tip0) ≤ 100 := by
      calc (r - s.t_tip0) * 100 / (s.t_tip1 - s.t_tip0)
          ≤ (s.t_tip1 - s.t_tip0) * 100 / (s.t_tip1 - s.t_tip0) :=
            Nat.div_le_div_right (Nat.mul_le_mul_right _ (by omega))
        _ = 100 := by
            rw [Nat.mul_comm]
            exact Nat.mul_div_left 100 (by omega)
    generalize (r - s.t_tip0) * 100 / (s.t_tip1 - s.t_tip0) = q at hb ⊢
    omega
  · have hre : r = s.t_tip1 := le_antisymm hr2 hge
    rw [if_pos hge]
    subst hre
    rw [u16_amap_nat s.t_tip1 s.t_tip1 s.t_tip2 300 400 (le_refl _) (by omega)
        (by omega)]
    rw [Nat.sub_self, Nat.zero_mul, Nat.zero_div]
    rw [Nat.mul_comm (s.t_tip1 - s.t_tip0) 100, Nat.mul_div_left 100 (by omega)]

/-- On and above the mid reference (up to 981 raw units beyond it, which
covers every value the inverse mapping can produce for x ≤ 400),
tempHuman is the integer interpolation 300 + ((r − t_tip1)·100)/span. -/
theorem tempHuman_high_seg (s : HGCfg) (h0 : 1 ≤ s.t_tip0)
    (h1 : s.t_tip0 + 51 ≤ s.t_tip1) (h2 : s.t_tip1 + 51 ≤ s.t_tip2)
    (_h3 : s.t_tip2 ≤ 1023) :
    ∀ r, s.t_tip1 ≤ r → r ≤ s.t_tip1 + 981 →
      tempHuman s r = 300 + ((r - s.t_tip1) * 100) / (s.t_tip2 - s.t_tip1) := by
  intro r hr1 hr2
  unfold tempHuman ambient_temp ambient_tempC temp_tip0 temp_tip1 temp_tip2
  rw [if_neg (by omega), if_neg (by omega), if_pos hr1]
  rw [u16_amap_nat r s.t_tip1 s.t_tip2 300 400 hr1 (by omega) (by omega)]
  rw [show (400 - 300 : Nat) = 100 from rfl]
  have hb : (r - s.t_tip1) * 100 / (s.t_tip2 - s.t_tip1) ≤ 1923 := by
    calc (r - s.t_tip1) * 100 / (s.t_tip2 - s.t_tip1)
        ≤ (r - s.t_tip1) * 100 / 51 := Nat.div_le_div_left (by omega) (by omega)
      _ ≤ 981 * 100 / 51 := Nat.div_le_div_right (Nat.mul_le_mul_right _ (by omega))
      _ ≤ 1923 := by norm_num
  generalize (r - s.t_tip1) * 100 / (s.t_tip2 - s.t_tip1) = q at hb ⊢
  omega

end Rework

namespace Rework

/-- C6 (amended): for every calibration with 1 ≤ t_tip0,
t_tip0 + 51 ≤ t_tip1, t_tip1 + 51 ≤ t_tip2 ≤ 1023 (each segment spans at
least 51 raw units per 100 Celsius, references inside the 10-bit ADC
range, low reference above the raw ambient 0) and every Celsius target x
in the reference range [200, 400], the round trip
tempHuman(tempInternal(x)) recovers x within plus or minus one unit;
tempInternal inverse-interpolates on the segment selected by x with the
+1 bias and then runs at most 10 single-unit decrements stopping once
tempHuman no longer exceeds x. -/
theorem C6_round_trip_amended (s : HGCfg) (x : Nat)
    (h0 : 1 ≤ s.t_tip0) (h1 : s.t_tip0 + 51 ≤ s.t_tip1)
    (h2 : s.t_tip1 + 51 ≤ s.t_tip2) (h3 : s.t_tip2 ≤ 1023)
    (hx1 : 200 ≤ x) (hx2 : x ≤ 400) :
    x - 1 ≤ tempHuman s (tempInternal s x) ∧
    tempHuman s (tempInternal s x) ≤ x + 1 := by
  rcases Nat.lt_or_ge x 300 with hxB | hxA
  · -- low segment: 200 ≤ x ≤ 299
    have e_t : tempInternal s x
        = tiLoop s x 10 (u16 (amap (x + 1) 200 300 s.t_tip0 s.t_tip1)) := by
      simp only [tempInternal, temp_minC, temp_maxC, temp_tip0, temp_tip1,
        temp_tip2, Nat.cast_ofNat]
      rw [if_neg (by omega : ¬ x < 150), if_neg (by omega : ¬ x > 500),
        if_neg (by omega : ¬ x ≥ 300)]
    have hr0 : u16 (amap (x + 1) 200 300 s.t_tip0 s.t_tip1)
        = s.t_tip0 + (x + 1 - 200) * (s.t_tip1 - s.t_tip0) / 100 := by
      have hmn := u16_amap_nat (x + 1) 200 300 s.t_tip0 s.t_tip1 (by omega)
        (by norm_num) (by omega)
      push_cast at hmn
      rw [hmn, show x + 1 - 200 = x - 199 from by omega]
      have hbd : (x - 199) * (s.t_tip1 - s.t_tip0) / 100 ≤ 1023 := by
        calc (x - 199) * (s.t_tip1 - s.t_tip0) / 100
            ≤ 100 * 1023 / 100 :=
              Nat.div_le_div_right (Nat.mul_le_mul (by omega) (by omega))
          _ = 1023 := by norm_num
      generalize (x - 199) * (s.t_tip1 - s.t_tip0) / 100 = q at hbd ⊢
      omega
    have hQd : (x + 1 - 200) * (s.t_tip1 - s.t_tip0) / 100
        ≤ s.t_tip1 - s.t_tip0 := by
      calc (x + 1 - 200) * (s.t_tip1 - s.t_tip0) / 100
          ≤ 100 * (s.t_tip1 - s.t_tip0) / 100 :=
            Nat.div_le_div_right (Nat.mul_le_mul_right _ (by omega))
        _ = s.t_tip1 - s.t_tip0 := by
            rw [Nat.mul_comm]
            exact Nat.mul_div_left _ (by norm_num)
    have hcancel : s.t_tip0 + (x + 1 - 200) * (s.t_tip1 - s.t_tip0) / 100
        - s.t_tip0 = (x + 1 - 200) * (s.t_tip1 - s.t_tip0) / 100 := by omega
    have hup := round_upper (x + 1 - 200) (s.t_tip1 - s.t_tip0) (by omega)
    have hlo := round_lower (x + 1 - 200) (s.t_tip1 - s.t_tip0) (by omega)
    have hinv := tiLoop_inv s 200 s.t_tip0 (s.t_tip1 - s.t_tip0) s.t_tip1 x
      (by omega) h0 (by omega) hx1
      (tempHuman_low_seg s h0 h1 h2 h3) 10
      (s.t_tip0 + (x + 1 - 200) * (s.t_tip1 - s.t_tip0) / 100)
      (Nat.le_add_right _ _)
      (by omega)
      (by rw [hcancel]; omega)
      (by rw [hcancel]; omega)
    rw [e_t, hr0]
    exact ⟨by omega, hinv.2⟩
  · -- high segment: 300 ≤ x ≤ 400
    have e_t : tempInternal s x
        = tiLoop s x 10 (u16 (amap (x + 1) 300 400 s.t_tip1 s.t_tip2)) := by
      simp only [tempInternal, temp_minC, temp_maxC, temp_tip0, temp_tip1,
        temp_tip2, Nat.cast_ofNat]
      rw [if_neg (by omega : ¬ x < 150), if_neg (by omega : ¬ x > 500),
        if_pos (by omega : x ≥ 300)]
    have hr0 : u16 (amap (x + 1) 300 400 s.t_tip1 s.t_tip2)
        = s.t_tip1 + (x + 1 - 300) * (s.t_tip2 - s.t_tip1) / 100 := by
      have hmn := u16_amap_nat (x + 1) 300 400 s.t_tip1 s.t_tip2 (by omega)
        (by norm_num) (by omega)
      push_cast at hmn
      rw [hmn, show x + 1 - 300 = x - 299 from by omega]
      have hbd : (x - 299) * (s.t_tip2 - s.t_tip1) / 100 ≤ 1034 := by
        calc (x - 299) * (s.t_tip2 - s.t_tip1) / 100
            ≤ 101 * 1023 / 100 :=
              Nat.div_le_div_right (Nat.mul_le_mul (by omega) (by omega))
          _ ≤ 1034 := by norm_num
      generalize (x - 299) * (s.t_tip2 - s.t_tip1) / 100 = q at hbd ⊢
      omega
    have hQU : (x + 1 - 300) * (s.t_tip2 - s.t_tip1) / 100 ≤ 981 := by
      calc (x + 1 - 300) * (s.t_tip2 - s.t_tip1) / 100
          ≤ 101 * 971 / 100 :=
            Nat.div_le_div_right (Nat.mul_le_mul (by omega) (by omega))
        _ ≤ 981 := by norm_num
    have hcancel : s.t_tip1 + (x + 1 - 300) * (s.t_tip2 - s.t_tip1) / 100
        - s.t_tip1 = (x + 1 - 300) * (s.t_tip2 - s.t_tip1) / 100 := by omega
    have hup := round_upper (x + 1 - 300) (s.t_tip2 - s.t_tip1) (by omega)
    have hlo := round_lower (x + 1 - 300) (s.t_tip2 - s.t_tip1) (by omega)
    have hinv := tiLoop_inv s 300 s.t_tip1 (s.t_tip2 - s.t_tip1)
      (s.t_tip1 + 981) x
      (by omega) (by omega) (by omega) hxA
      (tempHuman_high_seg s h0 h1 h2 h3) 10
      (s.t_tip1 + (x + 1 - 300) * (s.t_tip2 - s.t_tip1) / 100)
      (Nat.le_add_right _ _)
      (by omega)
      (by rw [hcancel]; omega)
      (by rw [hcancel]; omega)
    rw [e_t, hr0]
    exact ⟨by omega, hinv.2⟩

/-- C6 witness: the amended round trip applied at the built-in default
calibration (587, 751, 850) and x = 250. -/
theorem C6_round_trip_amended_witness :
    250 - 1 ≤ tempHuman ⟨⟨0, 600, 64, 0⟩, 587, 751, 850⟩
        (tempInternal ⟨⟨0, 600, 64, 0⟩, 587, 751, 850⟩ 250) ∧
    tempHuman ⟨⟨0, 600, 64, 0⟩, 587, 751, 850⟩
        (tempInternal ⟨⟨0, 600, 64, 0⟩, 587, 751, 850⟩ 250) ≤ 250 + 1 :=
  C6_round_trip_amended ⟨⟨0, 600, 64, 0⟩, 587, 751, 850⟩ 250
    (by decide) (by decide) (by decide) (by decide) (by decide) (by decide)

end Rework
